import Mathlib

/-!
Verification of the match-collection engine of `scripts/fetch_eune_matches.py`
(the rate limiter, the retrying HTTP client, the per-player match-id scan,
the match/timeline bundle download, and the matchlist merge logic) against a
shallow embedding of that code.

Python exceptions are modelled by `PyErr`; each network `get_json` call that a
higher-level function performs is abstracted as an `Except PyErr _` outcome
supplied by an oracle, and the filesystem is modelled by the set of match ids
whose detail (resp. timeline) file exists.
-/

namespace LoLFetch

/-- Python exceptions that `get_json` can raise: `ValueError` from
`float(...)` on a malformed Retry-After header, `RuntimeError` for a 4xx
response, and `RuntimeError` for an exhausted attempt budget. -/
inductive PyErr where
  | valueError : PyErr
  | runtimeFailed : Nat → PyErr
  | runtimeGivingUp : PyErr
deriving DecidableEq, Repr

/-- Whether an `except RuntimeError` handler catches this exception. -/
def PyErr.isRuntimeError : PyErr → Bool
  | .valueError => false
  | .runtimeFailed _ => true
  | .runtimeGivingUp => true

instance {ε α : Type} [DecidableEq ε] [DecidableEq α] : DecidableEq (Except ε α) :=
  fun x y =>
    match x, y with
    | .ok a, .ok b =>
      if h : a = b then .isTrue (congrArg Except.ok h)
      else .isFalse (fun hc => h (Except.ok.inj hc))
    | .ok _, .error _ => .isFalse (fun hc => Except.noConfusion hc)
    | .error _, .ok _ => .isFalse (fun hc => Except.noConfusion hc)
    | .error a, .error b =>
      if h : a = b then .isTrue (congrArg Except.error h)
      else .isFalse (fun hc => h (Except.error.inj hc))

/-- One HTTP response: status code, optional Retry-After header value, and
the (already parsed) JSON body, abstracted as a natural number. -/
structure HttpResponse where
  status : Nat
  retryAfter : Option String
  body : Nat
deriving DecidableEq, Repr

/-- The attempt loop of `RiotAPI.get_json` (lines 100-115): `resp` maps the
1-based attempt number to the response the session returns on that attempt,
`pf` models Python `float(...)` applied to the Retry-After header (`none`
meaning `float` raises `ValueError`), and the fuel is the number of attempts
left out of `retries`.  A 429 consumes an attempt after parsing the header
(default string "1"); a 5xx consumes an attempt; any other 4xx raises
`RuntimeError`; a non-error response returns its body; running out of
attempts raises the giving-up `RuntimeError`. -/
def get_json_go (pf : String → Option ℚ) (resp : Nat → HttpResponse)
    (attempt : Nat) : Nat → Except PyErr Nat
  | 0 => .error .runtimeGivingUp
  | fuel + 1 =>
    let r := resp attempt
    if r.status = 429 then
      match pf (r.retryAfter.getD ("1")) with
      | none => .error .valueError
      | some _ => get_json_go pf resp (attempt + 1) fuel
    else if 500 ≤ r.status then
      get_json_go pf resp (attempt + 1) fuel
    else if 400 ≤ r.status then
      .error (.runtimeFailed r.status)
    else
      .ok r.body

/-- `RiotAPI.get_json(url, params, retries)`: run the attempt loop starting
at attempt 1 with `retries` attempts available. -/
def get_json (pf : String → Option ℚ) (resp : Nat → HttpResponse)
    (retries : Nat) : Except PyErr Nat :=
  get_json_go pf resp 1 retries

/-- State of `RiotRateLimiter`: the two capacities fixed at construction and
the two deques of admission timestamps (time modelled by ℚ). -/
structure RiotRateLimiter where
  per_second : Nat
  per_two_minutes : Nat
  second_window : List ℚ
  two_minute_window : List ℚ
deriving DecidableEq, Repr

/-- One `while ... popleft()` loop of `_trim_windows`: drop leading
timestamps `t` with `now - t >= d`. -/
def trimWindow (d now : ℚ) (w : List ℚ) : List ℚ :=
  w.dropWhile (fun t => decide (d ≤ now - t))

/-- `RiotRateLimiter._trim_windows(now)`. -/
def trim_windows (now : ℚ) (st : RiotRateLimiter) : RiotRateLimiter :=
  { st with
      second_window := trimWindow 1 now st.second_window,
      two_minute_window := trimWindow 120 now st.two_minute_window }

/-- One successful-or-failed admission check of `RiotRateLimiter.wait` at
time `now`: trim both windows; if both are strictly under capacity, record
`now` in both windows and admit (`some` of the new state); otherwise the
caller sleeps and re-checks later (`none`). -/
def tryAdmit (st : RiotRateLimiter) (now : ℚ) : Option RiotRateLimiter :=
  let st2 := trim_windows now st
  if st2.second_window.length < st.per_second ∧
      st2.two_minute_window.length < st.per_two_minutes then
    some { st2 with
            second_window := st2.second_window ++ [now],
            two_minute_window := st2.two_minute_window ++ [now] }
  else
    none

/-- A run of successive `wait()` admissions at the given times: every listed
time must be admitted. -/
def runAdmissions (st : RiotRateLimiter) : List ℚ → Option RiotRateLimiter
  | [] => some st
  | t :: ts =>
    match tryAdmit st t with
    | none => none
    | some st2 => runAdmissions st2 ts

/-- A fresh limiter with the given capacities (`__init__`). -/
def RiotRateLimiter.init (c1 c2 : Nat) : RiotRateLimiter :=
  ⟨c1, c2, [], []⟩

/-- The `info` object of a match detail document: `queueId` and
`gameDuration` fields, each possibly absent. -/
structure MatchInfo where
  queueId : Option Int
  gameDuration : Option Int
deriving DecidableEq, Repr

/-- A match detail document: the `info` object, possibly absent
(`match_json.get("info", {})` then yields an empty dict). -/
structure MatchJson where
  info : Option MatchInfo
deriving DecidableEq, Repr

/-- The raw-data directory, as the set of match ids whose
`<id>.json` (detail) resp. `<id>_timeline.json` file exists. -/
structure RawDir where
  details : Finset String
  timelines : Finset String
deriving DecidableEq

/-- One outbound network request made while handling a match. -/
inductive NetCall where
  | matchDetail : String → NetCall
  | matchTimeline : String → NetCall
  | matchIds : Nat → NetCall
deriving DecidableEq, Repr

/-- Network oracle for `download_match_bundle`: the outcome of the
`get_json` call for a match's detail document and for its timeline. -/
structure MatchOracle where
  detail : String → Except PyErr MatchJson
  timeline : String → Except PyErr Nat

/-- Result of one `download_match_bundle` call: the returned
`(stored, reason)` pair (or the propagated exception), the filesystem
afterwards, and the network calls performed, in order. -/
structure BundleResult where
  outcome : Except PyErr (Bool × String)
  fs : RawDir
  calls : List NetCall
deriving DecidableEq

/-- `download_match_bundle` (lines 145-184).  Steps, as in the source:
both files cached → `(True, "cached")` with no network call; otherwise fetch
the detail (a raised exception propagates); queue filter mismatch →
`(False, "queue")`, nothing written; duration below minimum →
`(False, "duration")`, nothing written; write the detail file; timeline file
already present → `(True, "stored")`; fetch the timeline, a `RuntimeError`
there → `(False, "timeline")` leaving the detail-only state, any other
exception propagates; write the timeline file → `(True, "stored")`. -/
def download_match_bundle (o : MatchOracle) (match_id : String) (fs : RawDir)
    (min_duration : Int) (allowed_queue_id : Option Int) : BundleResult :=
  if match_id ∈ fs.details ∧ match_id ∈ fs.timelines then
    ⟨.ok (true, ("cached")), fs, []⟩
  else
    match o.detail match_id with
    | .error e => ⟨.error e, fs, [.matchDetail match_id]⟩
    | .ok match_json =>
      let info := match_json.info.getD ⟨none, none⟩
      let queue_id := info.queueId
      let queueMismatch : Bool :=
        match allowed_queue_id with
        | none => false
        | some a => decide (queue_id ≠ some a)
      if queueMismatch then
        ⟨.ok (false, ("queue")), fs, [.matchDetail match_id]⟩
      else
        let game_duration := info.gameDuration.getD 0
        if game_duration < min_duration then
          ⟨.ok (false, ("duration")), fs, [.matchDetail match_id]⟩
        else
          let fs1 : RawDir := ⟨insert match_id fs.details, fs.timelines⟩
          if match_id ∈ fs.timelines then
            ⟨.ok (true, ("stored")), fs1, [.matchDetail match_id]⟩
          else
            match o.timeline match_id with
            | .error e =>
              if e.isRuntimeError then
                ⟨.ok (false, ("timeline")), fs1,
                  [.matchDetail match_id, .matchTimeline match_id]⟩
              else
                ⟨.error e, fs1, [.matchDetail match_id, .matchTimeline match_id]⟩
            | .ok _ =>
              ⟨.ok (true, ("stored")),
                ⟨insert match_id fs.details, insert match_id fs.timelines⟩,
                [.matchDetail match_id, .matchTimeline match_id]⟩

/-- Mutable state of the orchestrator's collection loop (`main`, lines
227-232): the raw directory, the ordered matchlist, the membership set
`known_ids`, the ids newly stored this run, and the skip-statistics counter
(modelled as the list of labels incremented, so a label's count is its
number of occurrences). -/
structure LoopState where
  fs : RawDir
  ordered_ids : List String
  known_ids : Finset String
  new_matches : List String
  skip_stats : List String
deriving DecidableEq

/-- The inner `for match_id in match_ids` loop of `main` (lines 269-287):
skip ids already known (`duplicate_id`), call `download_match_bundle`,
convert a `RuntimeError` into a `download_error` skip, count a
`(False, reason)` result as `skip_<reason>`, and on `(True, _)` record the
id in the set, the ordered list and the new-matches list, stopping (second
component `true`) once `len(known_ids) >= target`.  Any non-`RuntimeError`
exception propagates. -/
def processMatchIds (o : MatchOracle) (min_duration : Int)
    (queue_filter : Option Int) (target : Int) :
    List String → LoopState → Except PyErr (LoopState × Bool)
  | [], st => .ok (st, false)
  | m :: rest, st =>
    if m ∈ st.known_ids then
      processMatchIds o min_duration queue_filter target rest
        { st with skip_stats := st.skip_stats ++ [("duplicate_id")] }
    else
      let r := download_match_bundle o m st.fs min_duration queue_filter
      match r.outcome with
      | .error e =>
        if e.isRuntimeError then
          processMatchIds o min_duration queue_filter target rest
            { st with fs := r.fs, skip_stats := st.skip_stats ++ [("download_error")] }
        else
          .error e
      | .ok (stored, reason) =>
        if stored then
          let st2 : LoopState :=
            { st with
                fs := r.fs,
                known_ids := insert m st.known_ids,
                ordered_ids := st.ordered_ids ++ [m],
                new_matches := st.new_matches ++ [m] }
          if target ≤ (st2.known_ids.card : Int) then
            .ok (st2, true)
          else
            processMatchIds o min_duration queue_filter target rest st2
        else
          processMatchIds o min_duration queue_filter target rest
            { st with fs := r.fs, skip_stats := st.skip_stats ++ [("skip_" ++ reason)] }

/-- The start offsets of the per-player scan: Python
`range(0, history_window, batch_size)` for a positive step. -/
def scanStarts (history_window batch_size : Nat) : List Nat :=
  (List.range ((history_window + batch_size - 1) / batch_size)).map
    (fun i => i * batch_size)

/-- The `for start in range(0, history_window, batch_size)` loop of `main`
(lines 255-289) for one player.  `idsO` maps a start offset to the outcome
of the match-ids `get_json` call.  A `RuntimeError` there counts an
`api_error` skip and abandons the player's scan; an empty batch ends the
player's history; otherwise the batch is processed and the loop stops early
when the target count is reached.  Returns the state, whether the target
was reached, and the list of offsets actually fetched. -/
def scanPlayer (idsO : Nat → Except PyErr (List String)) (o : MatchOracle)
    (min_duration : Int) (queue_filter : Option Int) (target : Int) :
    List Nat → LoopState → Except PyErr (LoopState × Bool × List Nat)
  | [], st => .ok (st, false, [])
  | start :: rest, st =>
    match idsO start with
    | .error e =>
      if e.isRuntimeError then
        .ok ({ st with skip_stats := st.skip_stats ++ [("api_error")] }, false, [start])
      else
        .error e
    | .ok match_ids =>
      if match_ids = [] then
        .ok (st, false, [start])
      else
        match processMatchIds o min_duration queue_filter target match_ids st with
        | .error e => .error e
        | .ok (st2, reached) =>
          if reached then
            .ok (st2, true, [start])
          else
            match scanPlayer idsO o min_duration queue_filter target rest st2 with
            | .error e => .error e
            | .ok (st3, b, visited) => .ok (st3, b, start :: visited)

/-- The visited-offsets component of a `scanPlayer` result. -/
def visitedOf (r : Except PyErr (LoopState × Bool × List Nat)) : List Nat :=
  match r with
  | .error _ => []
  | .ok (_, _, v) => v

/-- Modelled from the spec claim C3's words, for comparison with the source:
a scan that stops as soon as a batch returns fewer results than the
requested batch size (here `scanPlayer` stops only on an empty batch). -/
def scanVisitedClaimed (idsO : Nat → Except PyErr (List String))
    (batch_size : Nat) : List Nat → List Nat
  | [] => []
  | start :: rest =>
    match idsO start with
    | .error _ => [start]
    | .ok ids =>
      if ids.length < batch_size then [start]
      else start :: scanVisitedClaimed idsO batch_size rest

/-- The `for entry in iter_gold_entries(...)` loop of `main` (lines
241-291), with each player's resolved puuid abstracted into its match-ids
oracle: scan each player in turn, stopping once
`len(known_ids) >= target` (line 290). -/
def runPlayers (o : MatchOracle) (min_duration : Int)
    (queue_filter : Option Int) (target : Int) (starts : List Nat) :
    List (Nat → Except PyErr (List String)) → LoopState → Except PyErr LoopState
  | [], st => .ok st
  | p :: rest, st =>
    match scanPlayer p o min_duration queue_filter target starts st with
    | .error e => .error e
    | .ok (st2, _, _) =>
      if target ≤ (st2.known_ids.card : Int) then
        .ok st2
      else
        runPlayers o min_duration queue_filter target starts rest st2

/-- Python `str.strip()`: remove leading and trailing whitespace
(structurally, so that it evaluates by reduction). -/
def pyStrip (s : String) : String :=
  ⟨((s.data.dropWhile Char.isWhitespace).reverse.dropWhile
      Char.isWhitespace).reverse⟩

/-- One line of the `.env` scan inside `load_api_key` (lines 43-51): strip
the line, skip blanks, comments and lines without "=", split once on "="
and return the stripped value when the stripped name matches. -/
def parseEnvLine (env_var line : String) : Option String :=
  let l := pyStrip line
  if l = ("") then none
  else if l.startsWith ("#") then none
  else
    match l.splitOn ("=") with
    | [] => none
    | [_] => none
    | name :: rest =>
      if pyStrip name = env_var then some (pyStrip (String.intercalate ("=") rest))
      else none

/-- `load_api_key` (lines 32-52): a non-empty environment value wins
(stripped); otherwise the first matching line of the `.env` file (`none` for
an absent file) provides the value. -/
def load_api_key (env_val : Option String) (env_file : Option (List String))
    (env_var : String) : Option String :=
  let fromFile : Option String :=
    match env_file with
    | none => none
    | some lines => lines.findSome? (parseEnvLine env_var)
  match env_val with
  | some k => if k = ("") then fromFile else some (pyStrip k)
  | none => fromFile

/-- `load_existing_matchlist` (lines 187-192): an absent file yields the
empty list and empty set; otherwise the persisted list and its element
set. -/
def load_existing_matchlist (persisted : Option (List String)) :
    List String × Finset String :=
  match persisted with
  | none => ([], ∅)
  | some l => (l, l.toFinset)

/-- The command-line arguments of `main` that the collection loop uses. -/
structure MainArgs where
  target_match_count : Int
  matches_per_player : Int
  history_window : Int
  min_duration : Int
  queue_id : Int
deriving DecidableEq, Repr

/-- Outcome of one `main` run: the returned exit code (or the uncaught
exception), the persisted matchlist afterwards, and whether the under-target
warning was logged. -/
structure MainResult where
  exit : Except PyErr Int
  matchlist : Option (List String)
  warned : Bool
deriving DecidableEq

/-- `batch_size = max(1, min(args.matches_per_player, 100))` (line 234). -/
def mainBatchSize (args : MainArgs) : Int :=
  max 1 (min args.matches_per_player 100)

/-- `history_window = max(batch_size, args.history_window)` (line 238). -/
def mainHistoryWindow (args : MainArgs) : Int :=
  max (mainBatchSize args) args.history_window

/-- `queue_filter = None if args.queue_id < 0 else args.queue_id`
(line 239). -/
def mainQueueFilter (args : MainArgs) : Option Int :=
  if args.queue_id < 0 then none else some args.queue_id

/-- The loop state at the start of `main`'s collection loop (lines
227-232). -/
def mainStartState (fs0 : RawDir) (persisted : Option (List String)) :
    LoopState :=
  ⟨fs0, (load_existing_matchlist persisted).1,
    (load_existing_matchlist persisted).2, [], []⟩

/-- The body of `main` after the credential check (lines 223-309): load the
matchlist, derive the capped batch size, the history window and the queue
filter, run the collection loop, rewrite the matchlist iff new matches were
stored, warn iff under target, and return 0. -/
def mainBody (players : List (Nat → Except PyErr (List String)))
    (o : MatchOracle) (args : MainArgs) (fs0 : RawDir)
    (persisted : Option (List String)) : MainResult :=
  match runPlayers o args.min_duration (mainQueueFilter args)
      args.target_match_count
      (scanStarts (mainHistoryWindow args).toNat (mainBatchSize args).toNat)
      players (mainStartState fs0 persisted) with
  | .error e => ⟨.error e, persisted, false⟩
  | .ok st =>
    ⟨.ok 0,
      if st.new_matches ≠ [] then some st.ordered_ids else persisted,
      decide ((st.known_ids.card : Int) < args.target_match_count)⟩

/-- `main` (lines 213-309): load the credential; if it is missing or empty,
log an error and return 1 without touching the network; otherwise run the
collection loop and return 0. -/
def mainModel (env_val : Option String) (env_file : Option (List String))
    (players : List (Nat → Except PyErr (List String))) (o : MatchOracle)
    (args : MainArgs) (fs0 : RawDir) (persisted : Option (List String)) :
    MainResult :=
  let api_key := load_api_key env_val env_file ("RIOT_API_KEY")
  if api_key = none ∨ api_key = some ("") then
    ⟨.ok 1, persisted, false⟩
  else
    mainBody players o args fs0 persisted

/-! ### Concrete fixtures used in counterexamples and witnesses -/

/-- An info object with both fields absent (`{}` after `.get("info", {})`). -/
def emptyInfo : MatchInfo := ⟨none, none⟩

/-- A detail oracle returning a ranked match of 1800 seconds in queue 420,
with an available timeline. -/
def okOracle : MatchOracle :=
  ⟨fun _ => .ok ⟨some ⟨some 420, some 1800⟩⟩, fun _ => .ok 0⟩

/-- A detail oracle returning a match document with no `info` object. -/
def noInfoOracle : MatchOracle :=
  ⟨fun _ => .ok ⟨none⟩, fun _ => .ok 0⟩

/-- A mock endpoint answering 503 on attempts 1-3 and 200 (body 42) from
attempt 4 on. -/
def seq503 : Nat → HttpResponse :=
  fun attempt => if attempt ≤ 3 then ⟨503, none, 0⟩ else ⟨200, none, 42⟩

/-- An endpoint that always answers 429 with an unparseable Retry-After. -/
def seq429bad : Nat → HttpResponse :=
  fun _ => ⟨429, some ("not-a-number"), 0⟩

/-- A detail oracle whose matches are in queue 400, so that a 420 filter
skips every match (no state ever changes during a scan). -/
def skipQueueOracle : MatchOracle :=
  ⟨fun _ => .ok ⟨some ⟨some 400, some 1800⟩⟩, fun _ => .ok 0⟩

/-- A match-ids endpoint returning one id per batch: fewer than a batch
size of 2, but never empty. -/
def shortBatchIds : Nat → Except PyErr (List String) :=
  fun s => .ok (if s = 0 then [("x1")] else [("x2")])

/-- The loop state at the start of a run with no prior data. -/
def emptyLoopState : LoopState := ⟨⟨∅, ∅⟩, [], ∅, [], []⟩

/-- The loop state after loading a persisted matchlist `["a", "b"]`. -/
def scenarioState : LoopState :=
  ⟨⟨∅, ∅⟩, (load_existing_matchlist (some [("a"), ("b")])).1,
    (load_existing_matchlist (some [("a"), ("b")])).2, [], []⟩

/-- One ladder player whose first match-id batch is `["b", "c"]` and whose
history ends afterwards. -/
def scenarioPlayers : List (Nat → Except PyErr (List String)) :=
  [fun s => if s = 0 then .ok [("b"), ("c")] else .ok []]

/-- Default-like command-line arguments with the queue filter disabled. -/
def scenarioArgs : MainArgs := ⟨1000, 50, 200, 900, -1⟩

/-- The contents a rate window holds after the run of admissions `ts`:
nothing if there was no admission, otherwise the admitted timestamps still
within duration `d` of the last admission. -/
def windowModel (d : ℚ) (ts : List ℚ) : List ℚ :=
  match ts.getLast? with
  | none => []
  | some n => ts.filter (fun t => decide (n - t < d))

/-! ### Theorems about `download_match_bundle` -/


/-- C1: `download_match_bundle` is idempotent on a complete bundle: when the
detail file and the timeline file both exist, it returns `(True, "cached")`,
performs zero network calls and leaves the filesystem unchanged, and the
same holds for a repeated invocation on the resulting state. -/
theorem download_cached_idempotent (o : MatchOracle) (m : String) (fs : RawDir)
    (md : Int) (aq : Option Int) (h1 : m ∈ fs.details) (h2 : m ∈ fs.timelines) :
    download_match_bundle o m fs md aq = ⟨.ok (true, ("cached")), fs, []⟩ ∧
    download_match_bundle o m (download_match_bundle o m fs md aq).fs md aq =
      ⟨.ok (true, ("cached")), fs, []⟩ := by
  have h : download_match_bundle o m fs md aq = ⟨.ok (true, ("cached")), fs, []⟩ := by
    unfold download_match_bundle
    rw [if_pos ⟨h1, h2⟩]
  exact ⟨h, by rw [h]; exact h⟩

/-- Witness for C1 at a concrete complete bundle. -/
theorem download_cached_idempotent_witness :
    ("m") ∈ (⟨{("m")}, {("m")}⟩ : RawDir).details ∧
    ("m") ∈ (⟨{("m")}, {("m")}⟩ : RawDir).timelines ∧
    download_match_bundle ⟨fun _ => .error .runtimeGivingUp, fun _ => .error .runtimeGivingUp⟩
        ("m") ⟨{("m")}, {("m")}⟩ 900 (some 420) =
      ⟨.ok (true, ("cached")), ⟨{("m")}, {("m")}⟩, []⟩ :=
  ⟨by decide, by decide,
    (download_cached_idempotent
      ⟨fun _ => .error .runtimeGivingUp, fun _ => .error .runtimeGivingUp⟩
      ("m") ⟨{("m")}, {("m")}⟩ 900 (some 420) (by decide) (by decide)).1⟩


/-- Counterexample to C2: with the detail file on disk and the timeline
absent, a later `download_match_bundle` call does fetch the match detail
over the network (its call list starts with the detail request). -/
theorem download_detail_only_refetches_detail :
    (download_match_bundle okOracle ("m") ⟨{("m")}, ∅⟩ 900 (some 420)).calls =
      [.matchDetail ("m"), .matchTimeline ("m")] ∧
    NetCall.matchDetail ("m") ∈
      (download_match_bundle okOracle ("m") ⟨{("m")}, ∅⟩ 900 (some 420)).calls := by
  constructor
  · rfl
  · rw [show (download_match_bundle okOracle ("m") ⟨{("m")}, ∅⟩ 900 (some 420)).calls =
        [.matchDetail ("m"), .matchTimeline ("m")] from rfl]
    exact List.mem_cons_self _ _

/-- C2 (amended): from the detail-only intermediate state, a later call
whose detail fetch succeeds, passes both filters and whose timeline fetch
succeeds completes the bundle (both files present, result
`(True, "stored")`), but it does re-fetch the match detail over the
network before fetching the timeline. -/
theorem download_detail_only_completes (o : MatchOracle) (m : String)
    (fs : RawDir) (md : Int) (aq : Option Int) (mj : MatchJson) (t : Nat)
    (hd : m ∈ fs.details) (ht : m ∉ fs.timelines)
    (hdet : o.detail m = .ok mj)
    (hq : aq = none ∨ (mj.info.getD emptyInfo).queueId = aq)
    (hdur : md ≤ (mj.info.getD emptyInfo).gameDuration.getD 0)
    (htl : o.timeline m = .ok t) :
    download_match_bundle o m fs md aq =
      ⟨.ok (true, ("stored")), ⟨insert m fs.details, insert m fs.timelines⟩,
        [.matchDetail m, .matchTimeline m]⟩ := by
  unfold download_match_bundle
  rw [if_neg (fun hc => ht hc.2), hdet]
  rcases aq with _ | a
  · simp only [emptyInfo] at hdur
    simp [htl, ht, not_lt.mpr hdur]
  · rcases hq with hq | hq
    · exact absurd hq (by simp)
    · simp only [emptyInfo] at hq hdur
      simp [hq, htl, ht, not_lt.mpr hdur]

/-- Witness for the amended C2 at a concrete detail-only state. -/
theorem download_detail_only_completes_witness :
    ("m") ∈ (⟨{("m")}, ∅⟩ : RawDir).details ∧
    ("m") ∉ (⟨{("m")}, ∅⟩ : RawDir).timelines ∧
    okOracle.detail ("m") = .ok ⟨some ⟨some 420, some 1800⟩⟩ ∧
    download_match_bundle okOracle ("m") ⟨{("m")}, ∅⟩ 900 (some 420) =
      ⟨.ok (true, ("stored")), ⟨insert ("m") {("m")}, insert ("m") ∅⟩,
        [.matchDetail ("m"), .matchTimeline ("m")]⟩ :=
  ⟨by decide, by decide, rfl,
    download_detail_only_completes okOracle ("m") ⟨{("m")}, ∅⟩ 900 (some 420)
      ⟨some ⟨some 420, some 1800⟩⟩ 0 (by decide) (by decide) rfl
      (Or.inr rfl) (by decide) rfl⟩

/-- C4: on a bundle that is not already complete, a queue-filter mismatch
yields `(False, "queue")` and a too-short duration (with the queue filter
passing) yields `(False, "duration")`; in both cases the filesystem is
unchanged — no detail and no timeline file is written. -/
theorem download_filtered_writes_nothing (o : MatchOracle) (m : String)
    (fs : RawDir) (md : Int) (aq : Option Int) (mj : MatchJson)
    (hnc : ¬ (m ∈ fs.details ∧ m ∈ fs.timelines))
    (hdet : o.detail m = .ok mj) :
    (∀ a, aq = some a → (mj.info.getD emptyInfo).queueId ≠ some a →
      download_match_bundle o m fs md aq =
        ⟨.ok (false, ("queue")), fs, [.matchDetail m]⟩) ∧
    ((aq = none ∨ (mj.info.getD emptyInfo).queueId = aq) →
      (mj.info.getD emptyInfo).gameDuration.getD 0 < md →
      download_match_bundle o m fs md aq =
        ⟨.ok (false, ("duration")), fs, [.matchDetail m]⟩) := by
  constructor
  · intro a ha hne
    subst ha
    unfold download_match_bundle
    rw [if_neg hnc, hdet]
    simp only [emptyInfo] at hne
    simp [hne]
  · intro hq hdur
    unfold download_match_bundle
    rw [if_neg hnc, hdet]
    rcases aq with _ | a
    · simp only [emptyInfo] at hdur
      simp [hdur]
    · rcases hq with hq | hq
      · exact absurd hq (by simp)
      · simp only [emptyInfo] at hq hdur
        simp [hq, hdur]

/-- Witness for C4 at concrete mismatching and too-short matches. -/
theorem download_filtered_writes_nothing_witness :
    ¬ (("m") ∈ (⟨∅, ∅⟩ : RawDir).details ∧ ("m") ∈ (⟨∅, ∅⟩ : RawDir).timelines) ∧
    download_match_bundle okOracle ("m") ⟨∅, ∅⟩ 900 (some 440) =
      ⟨.ok (false, ("queue")), ⟨∅, ∅⟩, [.matchDetail ("m")]⟩ ∧
    download_match_bundle okOracle ("m") ⟨∅, ∅⟩ 2000 (some 420) =
      ⟨.ok (false, ("duration")), ⟨∅, ∅⟩, [.matchDetail ("m")]⟩ :=
  ⟨by decide,
    (download_filtered_writes_nothing okOracle ("m") ⟨∅, ∅⟩ 900 (some 440)
      ⟨some ⟨some 420, some 1800⟩⟩ (by decide) rfl).1 440 rfl (by decide),
    (download_filtered_writes_nothing okOracle ("m") ⟨∅, ∅⟩ 2000 (some 420)
      ⟨some ⟨some 420, some 1800⟩⟩ (by decide) rfl).2 (Or.inr rfl) (by decide)⟩


/-- Counterexample to C9: when the `info` object is absent but a queue
filter is configured, the queue check fires first, so the call returns
`(False, "queue")`, not `(False, "duration")`, even though the minimum
duration is positive. -/
theorem download_missing_info_queue_first :
    download_match_bundle noInfoOracle ("m") ⟨∅, ∅⟩ 1 (some 420) =
      ⟨.ok (false, ("queue")), ⟨∅, ∅⟩, [.matchDetail ("m")]⟩ ∧
    (download_match_bundle noInfoOracle ("m") ⟨∅, ∅⟩ 1 (some 420)).outcome ≠
      .ok (false, ("duration")) := by
  decide

/-- C9 (amended): when the fetched detail document lacks a `gameDuration`
field (or lacks the whole `info` object), the duration is treated as 0, so
provided the queue filter passes (no filter configured, or the extracted
queue id equal to it) and the configured minimum duration is positive, the
call returns `(False, "duration")` and writes nothing to disk. -/
theorem download_missing_duration_skipped (o : MatchOracle) (m : String)
    (fs : RawDir) (md : Int) (aq : Option Int) (mj : MatchJson)
    (hnc : ¬ (m ∈ fs.details ∧ m ∈ fs.timelines))
    (hdet : o.detail m = .ok mj)
    (hq : aq = none ∨ (mj.info.getD emptyInfo).queueId = aq)
    (hmiss : mj.info = none ∨ (mj.info.getD emptyInfo).gameDuration = none)
    (hmd : 0 < md) :
    download_match_bundle o m fs md aq =
      ⟨.ok (false, ("duration")), fs, [.matchDetail m]⟩ := by
  have hdur : (mj.info.getD emptyInfo).gameDuration.getD 0 = 0 := by
    rcases hmiss with hmiss | hmiss
    · rw [hmiss]
      rfl
    · rw [hmiss]
      rfl
  exact (download_filtered_writes_nothing o m fs md aq mj hnc hdet).2 hq
    (by rw [hdur]; exact hmd)

/-- Witness for the amended C9 at a concrete info-less document with no
queue filter configured. -/
theorem download_missing_duration_skipped_witness :
    noInfoOracle.detail ("m") = .ok ⟨none⟩ ∧
    (0 : Int) < 1 ∧
    download_match_bundle noInfoOracle ("m") ⟨∅, ∅⟩ 1 none =
      ⟨.ok (false, ("duration")), ⟨∅, ∅⟩, [.matchDetail ("m")]⟩ :=
  ⟨rfl, by decide,
    download_missing_duration_skipped noInfoOracle ("m") ⟨∅, ∅⟩ 1 none ⟨none⟩
      (by decide) rfl (Or.inl rfl) (Or.inl rfl) (by decide)⟩

/-! ### Theorems about `RiotAPI.get_json` -/


/-- C7: against a 503, 503, 503, 200 response sequence, `get_json` with
`retries = 5` returns the parsed 200 body, while `retries = 3` exhausts the
attempt budget and raises the terminal giving-up `RuntimeError`. -/
theorem get_json_retry_budget (pf : String → Option ℚ) :
    get_json pf seq503 5 = .ok 42 ∧
    get_json pf seq503 3 = .error .runtimeGivingUp :=
  ⟨rfl, rfl⟩

/-- `download_match_bundle` propagates an exception raised by the detail
fetch, before writing anything. -/
theorem download_detail_error (o : MatchOracle) (m : String) (fs : RawDir)
    (md : Int) (aq : Option Int) (e : PyErr)
    (hnc : ¬ (m ∈ fs.details ∧ m ∈ fs.timelines))
    (hdet : o.detail m = .error e) :
    download_match_bundle o m fs md aq = ⟨.error e, fs, [.matchDetail m]⟩ := by
  unfold download_match_bundle
  rw [if_neg hnc, hdet]

/-- C10: a 429 response whose Retry-After header does not parse as a float
makes `get_json` raise `ValueError` (not the `RuntimeError` used for the
other terminal errors); the orchestrator's per-match handler catches only
`RuntimeError`, so such an exception from a match download aborts the whole
run, whereas a `RuntimeError` there is converted into a `download_error`
skip statistic. -/
theorem get_json_unparseable_retry_after (pf : String → Option ℚ)
    (resp : Nat → HttpResponse) (s : String) (b retries : Nat)
    (h1 : resp 1 = ⟨429, some s, b⟩) (h2 : pf s = none) (h3 : 1 ≤ retries) :
    get_json pf resp retries = .error .valueError ∧
    PyErr.valueError.isRuntimeError = false ∧
    (∀ (o : MatchOracle) (md : Int) (qf : Option Int) (tgt : Int)
        (m : String) (rest : List String) (st : LoopState),
      m ∉ st.known_ids →
      ¬ (m ∈ st.fs.details ∧ m ∈ st.fs.timelines) →
      (o.detail m = .error .valueError →
        processMatchIds o md qf tgt (m :: rest) st = .error .valueError) ∧
      (∀ c, o.detail m = .error (.runtimeFailed c) →
        processMatchIds o md qf tgt (m :: rest) st =
          processMatchIds o md qf tgt rest
            { st with skip_stats := st.skip_stats ++ [("download_error")] })) := by
  refine ⟨?_, rfl, ?_⟩
  · obtain ⟨fuel, rfl⟩ : ∃ fuel, retries = fuel + 1 :=
      ⟨retries - 1, (Nat.succ_pred_eq_of_pos h3).symm⟩
    unfold get_json get_json_go
    rw [h1]
    simp [h2]
  · intro o md qf tgt m rest st hm hnc
    constructor
    · intro hdet
      simp only [processMatchIds]
      rw [if_neg hm]
      simp only [download_detail_error o m st.fs md qf .valueError hnc hdet]
      rfl
    · intro c hdet
      simp only [processMatchIds]
      rw [if_neg hm]
      simp only [download_detail_error o m st.fs md qf (.runtimeFailed c) hnc hdet]
      rfl


/-- Witness for C10 at a concrete unparseable header and a concrete
aborting match download. -/
theorem get_json_unparseable_retry_after_witness :
    seq429bad 1 = ⟨429, some ("not-a-number"), 0⟩ ∧
    (fun _ => (none : Option ℚ)) ("not-a-number") = none ∧
    1 ≤ 5 ∧
    get_json (fun _ => none) seq429bad 5 = .error .valueError ∧
    processMatchIds ⟨fun _ => .error .valueError, fun _ => .ok 0⟩ 900 none 1000
        [("m")] ⟨⟨∅, ∅⟩, [], ∅, [], []⟩ = .error .valueError :=
  ⟨rfl, rfl, by decide,
    (get_json_unparseable_retry_after (fun _ => none) seq429bad ("not-a-number")
      0 5 rfl rfl (by decide)).1,
    (((get_json_unparseable_retry_after (fun _ => none) seq429bad ("not-a-number")
      0 5 rfl rfl (by decide)).2.2 ⟨fun _ => .error .valueError, fun _ => .ok 0⟩
      900 none 1000 ("m") [] ⟨⟨∅, ∅⟩, [], ∅, [], []⟩ (by decide) (by decide)).1 rfl)⟩

/-! ### Theorems about the per-player scan -/

/-- Counterexample to C3: with a batch size of 2 and a history depth of 4,
a first batch holding a single id (fewer than requested, but non-empty)
does not stop the scan — the code fetches offset 2 as well, while the
claimed stopping rule would have stopped after offset 0. -/
theorem scan_short_batch_does_not_stop :
    visitedOf (scanPlayer shortBatchIds skipQueueOracle 900 (some 420) 1000
      (scanStarts 4 2) emptyLoopState) = [0, 2] ∧
    scanVisitedClaimed shortBatchIds 2 (scanStarts 4 2) = [0] ∧
    shortBatchIds 0 = .ok [("x1")] ∧
    ([("x1")] : List String).length < 2 ∧
    ([0, 2] : List Nat) ≠ [0] := by
  refine ⟨?_, ?_, rfl, by decide, by decide⟩
  · rfl
  · rfl

/-- Structure of a completed `scanPlayer` run: the visited offsets are a
prefix of the planned offsets, every visited offset before the last one
yielded a successful non-empty batch, and if every planned batch is
successful and non-empty and the target was not reached, the whole planned
range is visited. -/
theorem scanPlayer_visited_aux (idsO : Nat → Except PyErr (List String))
    (o : MatchOracle) (md : Int) (qf : Option Int) (tgt : Int) :
    ∀ (starts : List Nat) (st st2 : LoopState) (reached : Bool)
      (visited : List Nat),
      scanPlayer idsO o md qf tgt starts st = .ok (st2, reached, visited) →
      (∃ t, visited ++ t = starts) ∧
      (∀ v w, visited = v ++ [w] →
        ∀ s ∈ v, ∃ ids, idsO s = .ok ids ∧ ids ≠ []) ∧
      ((reached = false ∧
          ∀ s ∈ starts, ∃ ids, idsO s = .ok ids ∧ ids ≠ []) →
        visited = starts) := by
  intro starts
  induction starts with
  | nil =>
    intro st st2 reached visited hrun
    simp only [scanPlayer, Except.ok.injEq, Prod.mk.injEq] at hrun
    obtain ⟨-, -, hv⟩ := hrun
    subst hv
    refine ⟨⟨[], rfl⟩, ?_, fun _ => rfl⟩
    intro v w hvw
    exact absurd hvw.symm (List.append_ne_nil_of_right_ne_nil v (by simp))
  | cons start rest ih =>
    intro st st2 reached visited hrun
    simp only [scanPlayer] at hrun
    split at hrun
    · -- idsO start = .error e
      next e heq =>
        split at hrun
        · simp only [Except.ok.injEq, Prod.mk.injEq] at hrun
          obtain ⟨-, hb, hv⟩ := hrun
          subst hv
          refine ⟨⟨rest, rfl⟩, ?_, ?_⟩
          · intro v w hvw
            have hv0 : v = [] := by
              cases v with
              | nil => rfl
              | cons a v2 =>
                simp only [List.cons_append, List.cons.injEq] at hvw
                exact absurd hvw.2.symm (List.append_ne_nil_of_right_ne_nil v2 (by simp))
            subst hv0
            intro s hs
            exact absurd hs (List.not_mem_nil s)
          · rintro ⟨-, hall⟩
            obtain ⟨ids, hids, -⟩ := hall start (List.mem_cons_self start rest)
            rw [heq] at hids
            exact absurd hids (by simp)
        · exact absurd hrun (by simp)
    · -- idsO start = .ok match_ids
      next match_ids heq =>
        split at hrun
        · -- empty batch
          next hempty =>
            simp only [Except.ok.injEq, Prod.mk.injEq] at hrun
            obtain ⟨-, hb, hv⟩ := hrun
            subst hv
            refine ⟨⟨rest, rfl⟩, ?_, ?_⟩
            · intro v w hvw
              have hv0 : v = [] := by
                cases v with
                | nil => rfl
                | cons a v2 =>
                  simp only [List.cons_append, List.cons.injEq] at hvw
                  exact absurd hvw.2.symm (List.append_ne_nil_of_right_ne_nil v2 (by simp))
              subst hv0
              intro s hs
              exact absurd hs (List.not_mem_nil s)
            · rintro ⟨-, hall⟩
              obtain ⟨ids, hids, hne⟩ := hall start (List.mem_cons_self start rest)
              rw [heq] at hids
              exact absurd (Except.ok.inj hids) (fun hc => hne (hc ▸ hempty))
        · -- non-empty batch, process it
          next hne =>
            split at hrun
            · exact absurd hrun (by simp)
            · next stp reachedp hproc =>
                split at hrun
                · -- target reached: stop with this offset
                  simp only [Except.ok.injEq, Prod.mk.injEq] at hrun
                  obtain ⟨-, hb, hv⟩ := hrun
                  subst hv
                  refine ⟨⟨rest, rfl⟩, ?_, ?_⟩
                  · intro v w hvw
                    have hv0 : v = [] := by
                      cases v with
                      | nil => rfl
                      | cons a v2 =>
                        simp only [List.cons_append, List.cons.injEq] at hvw
                        exact absurd hvw.2.symm
                          (List.append_ne_nil_of_right_ne_nil v2 (by simp))
                    subst hv0
                    intro s hs
                    exact absurd hs (List.not_mem_nil s)
                  · rintro ⟨hb2, -⟩
                    rw [← hb] at hb2
                    exact absurd hb2 (by simp)
                · -- continue with the remaining offsets
                  split at hrun
                  · exact absurd hrun (by simp)
                  · next st3 b vis2 hrec =>
                      simp only [Except.ok.injEq, Prod.mk.injEq] at hrun
                      obtain ⟨-, hb, hv⟩ := hrun
                      subst hv
                      obtain ⟨⟨t, hpre⟩, hmid, hfull⟩ :=
                        ih stp st3 b vis2 hrec
                      refine ⟨⟨t, by rw [List.cons_append, hpre]⟩, ?_, ?_⟩
                      · intro v w hvw
                        cases v with
                        | nil => intro s hs; exact absurd hs (List.not_mem_nil s)
                        | cons a v2 =>
                          simp only [List.cons_append, List.cons.injEq] at hvw
                          obtain ⟨ha, hvis⟩ := hvw
                          intro s hs
                          rcases List.mem_cons.mp hs with hs | hs
                          · subst hs
                            subst ha
                            exact ⟨match_ids, heq, hne⟩
                          · exact hmid v2 w hvis s hs
                      · rintro ⟨hb2, hall⟩
                        have : vis2 = rest := by
                          refine hfull ⟨hb.trans hb2, ?_⟩
                          intro s hs
                          exact hall s (List.mem_cons_of_mem start hs)
                        rw [this]

/-- C3 (amended): the per-player scan pages in fixed-size batches, the
visited offsets being multiples of `batchSize` forming a prefix of
`range(0, historyDepth', batchSize)`; the scan continues past a batch with
fewer results than requested as long as it is non-empty, stopping only at
a failed fetch, an empty batch, the target count being reached, or the
history-depth bound; in particular if every planned batch is successful and
non-empty and the target is not reached, the scan visits the entire range
up to the history-depth bound. -/
theorem scan_pagination (idsO : Nat → Except PyErr (List String))
    (o : MatchOracle) (md : Int) (qf : Option Int) (tgt : Int) (hw bs : Nat)
    (st st2 : LoopState) (reached : Bool) (visited : List Nat)
    (hrun : scanPlayer idsO o md qf tgt (scanStarts hw bs) st =
      .ok (st2, reached, visited)) :
    (∀ s ∈ scanStarts hw bs, ∃ i, s = i * bs) ∧
    (∃ t, visited ++ t = scanStarts hw bs) ∧
    (∀ v w, visited = v ++ [w] →
      ∀ s ∈ v, ∃ ids, idsO s = .ok ids ∧ ids ≠ []) ∧
    ((reached = false ∧
        ∀ s ∈ scanStarts hw bs, ∃ ids, idsO s = .ok ids ∧ ids ≠ []) →
      visited = scanStarts hw bs) := by
  refine ⟨?_, scanPlayer_visited_aux idsO o md qf tgt (scanStarts hw bs)
    st st2 reached visited hrun⟩
  intro s hs
  simp only [scanStarts, List.mem_map] at hs
  obtain ⟨i, -, hi⟩ := hs
  exact ⟨i, hi.symm⟩

/-- Witness for the amended C3: a scan whose batches are all non-empty
visits every planned offset of `range(0, 4, 2)`. -/
theorem scan_pagination_witness :
    scanPlayer shortBatchIds skipQueueOracle 900 (some 420) 1000
        (scanStarts 4 2) emptyLoopState =
      .ok (⟨⟨∅, ∅⟩, [], ∅, [], [("skip_queue"), ("skip_queue")]⟩, false, [0, 2]) ∧
    ([0, 2] : List Nat) = scanStarts 4 2 :=
  ⟨rfl,
    (scan_pagination shortBatchIds skipQueueOracle 900 (some 420) 1000 4 2
      emptyLoopState ⟨⟨∅, ∅⟩, [], ∅, [], [("skip_queue"), ("skip_queue")]⟩
      false [0, 2] rfl).2.2.2
      ⟨rfl, fun s _ => ⟨if s = 0 then [("x1")] else [("x2")], rfl, by
        split
        · simp
        · simp⟩⟩⟩

/-! ### Theorems about the matchlist merge -/

/-- C6: merging is order-preserving and duplicate-safe.  First, the
concrete scenario: with `["a", "b"]` persisted and a scan discovering
`["b", "c"]` (with `"c"` accepted), the run completes with exit code 0 and
the persisted matchlist is exactly `["a", "b", "c"]`.  Second, after
loading, `known_ids` is the element set of the ordered list.  Third, the
per-match loop preserves the invariant that `known_ids` is the element set
of the duplicate-free ordered list. -/
theorem matchlist_merge_scenario :
    mainBody scenarioPlayers okOracle scenarioArgs ⟨∅, ∅⟩ (some [("a"), ("b")]) =
      ⟨.ok 0, some [("a"), ("b"), ("c")], true⟩ ∧
    (∀ persisted, (load_existing_matchlist persisted).2 =
      (load_existing_matchlist persisted).1.toFinset) ∧
    (∀ (o : MatchOracle) (md : Int) (qf : Option Int) (tgt : Int)
        (ids : List String) (st st2 : LoopState) (b : Bool),
      st.known_ids = st.ordered_ids.toFinset → st.ordered_ids.Nodup →
      processMatchIds o md qf tgt ids st = .ok (st2, b) →
      st2.known_ids = st2.ordered_ids.toFinset ∧ st2.ordered_ids.Nodup) := by
  refine ⟨rfl, ?_, ?_⟩
  · intro persisted
    cases persisted <;> rfl
  · intro o md qf tgt ids
    induction ids with
    | nil =>
      intro st st2 b hk hnod hrun
      simp only [processMatchIds, Except.ok.injEq, Prod.mk.injEq] at hrun
      obtain ⟨hst, -⟩ := hrun
      subst hst
      exact ⟨hk, hnod⟩
    | cons m rest ih =>
      intro st st2 b hk hnod hrun
      simp only [processMatchIds] at hrun
      split at hrun
      · refine ih _ st2 b ?_ ?_ hrun
        · exact hk
        · exact hnod
      · next hm =>
        split at hrun
        · -- download raised an exception
          split at hrun
          · refine ih _ st2 b ?_ ?_ hrun
            · exact hk
            · exact hnod
          · exact absurd hrun (by simp)
        · next stored reason hout =>
          split at hrun
          · -- the match was stored: the id is appended to list and set
            have hm2 : m ∉ st.ordered_ids := by
              rw [hk] at hm
              exact fun hma => hm (List.mem_toFinset.mpr hma)
            have hk2 : insert m st.known_ids = (st.ordered_ids ++ [m]).toFinset := by
              apply Finset.ext
              intro a
              simp [hk, or_comm]
            have hnod2 : (st.ordered_ids ++ [m]).Nodup := by
              rw [List.nodup_append]
              refine ⟨hnod, List.nodup_singleton m, ?_⟩
              intro a ha hb
              rw [List.mem_singleton] at hb
              subst hb
              exact hm2 ha
            split at hrun
            · simp only [Except.ok.injEq, Prod.mk.injEq] at hrun
              obtain ⟨hst, -⟩ := hrun
              subst hst
              exact ⟨hk2, hnod2⟩
            · refine ih _ st2 b ?_ ?_ hrun
              · exact hk2
              · exact hnod2
          · -- the match was skipped: list and set unchanged
            refine ih _ st2 b ?_ ?_ hrun
            · exact hk
            · exact hnod

/-- Witness for C6's invariant at the concrete scenario state. -/
theorem matchlist_merge_scenario_witness :
    scenarioState.known_ids = scenarioState.ordered_ids.toFinset ∧
    scenarioState.ordered_ids.Nodup ∧
    processMatchIds okOracle 900 none 1000 [("b"), ("c")] scenarioState =
      .ok (⟨⟨insert ("c") ∅, insert ("c") ∅⟩, [("a"), ("b"), ("c")],
        insert ("c") (([("a"), ("b")] : List String).toFinset),
        [("c")], [("duplicate_id")]⟩, false) ∧
    (⟨⟨insert ("c") ∅, insert ("c") ∅⟩, [("a"), ("b"), ("c")],
        insert ("c") (([("a"), ("b")] : List String).toFinset),
        [("c")], [("duplicate_id")]⟩ : LoopState).known_ids =
      (⟨⟨insert ("c") ∅, insert ("c") ∅⟩, [("a"), ("b"), ("c")],
        insert ("c") (([("a"), ("b")] : List String).toFinset),
        [("c")], [("duplicate_id")]⟩ : LoopState).ordered_ids.toFinset ∧
    (⟨⟨insert ("c") ∅, insert ("c") ∅⟩, [("a"), ("b"), ("c")],
        insert ("c") (([("a"), ("b")] : List String).toFinset),
        [("c")], [("duplicate_id")]⟩ : LoopState).ordered_ids.Nodup :=
  ⟨by decide, by decide, rfl,
    matchlist_merge_scenario.2.2 okOracle 900 none 1000 [("b"), ("c")]
      scenarioState _ false (by decide) (by decide) rfl⟩

/-! ### Theorems about `main`'s exit status -/

/-- C8: when no credential can be loaded (or it is empty), `main` returns
exit status 1 with the persisted state untouched — for every network oracle
and player set, i.e. before any network activity; when a credential is
present and the collection loop completes without an uncaught exception,
`main` returns exit status 0, with the under-target case surfacing only as
the warning flag. -/
theorem main_exit_status :
    (∀ env_val env_file players o args fs0 persisted,
      (load_api_key env_val env_file ("RIOT_API_KEY") = none ∨
        load_api_key env_val env_file ("RIOT_API_KEY") = some ("")) →
      mainModel env_val env_file players o args fs0 persisted =
        ⟨.ok 1, persisted, false⟩) ∧
    (∀ env_val env_file players o args fs0 persisted st,
      ¬ (load_api_key env_val env_file ("RIOT_API_KEY") = none ∨
        load_api_key env_val env_file ("RIOT_API_KEY") = some ("")) →
      runPlayers o args.min_duration (mainQueueFilter args)
          args.target_match_count
          (scanStarts (mainHistoryWindow args).toNat (mainBatchSize args).toNat)
          players (mainStartState fs0 persisted) = .ok st →
      mainModel env_val env_file players o args fs0 persisted =
        ⟨.ok 0,
          if st.new_matches ≠ [] then some st.ordered_ids else persisted,
          decide ((st.known_ids.card : Int) < args.target_match_count)⟩) := by
  constructor
  · intro env_val env_file players o args fs0 persisted h
    unfold mainModel
    rw [if_pos h]
  · intro env_val env_file players o args fs0 persisted st hkey hbody
    unfold mainModel mainBody
    rw [if_neg hkey, hbody]

/-- Witness for C8: a missing credential exits 1 touching nothing; a
present credential with an immediately exhausted ladder exits 0 with the
under-target warning set. -/
theorem main_exit_status_witness :
    (load_api_key none none ("RIOT_API_KEY") = none ∨
      load_api_key none none ("RIOT_API_KEY") = some ("")) ∧
    mainModel none none [] okOracle scenarioArgs ⟨∅, ∅⟩ (some [("a")]) =
      ⟨.ok 1, some [("a")], false⟩ ∧
    mainModel (some ("k")) none [] okOracle scenarioArgs ⟨∅, ∅⟩ none =
      ⟨.ok 0, none, true⟩ :=
  ⟨Or.inl rfl,
    main_exit_status.1 none none [] okOracle scenarioArgs ⟨∅, ∅⟩
      (some [("a")]) (Or.inl rfl),
    main_exit_status.2 (some ("k")) none [] okOracle scenarioArgs ⟨∅, ∅⟩
      none (mainStartState ⟨∅, ∅⟩ none) (by decide) rfl⟩

/-! ### Theorems about `RiotRateLimiter` -/

/-- Splitting a run of admissions at an append. -/
theorem runAdmissions_append (xs ys : List ℚ) :
    ∀ st : RiotRateLimiter, runAdmissions st (xs ++ ys) =
      match runAdmissions st xs with
      | none => none
      | some mid => runAdmissions mid ys := by
  induction xs with
  | nil => intro st; rfl
  | cons t xs ih =>
    intro st
    simp only [List.cons_append, runAdmissions]
    cases htry : tryAdmit st t with
    | none => rfl
    | some st2 => exact ih st2

/-- On a sorted window, the popleft loop of `_trim_windows` keeps exactly
the timestamps still within duration `d` of `now`. -/
theorem trimWindow_sorted_eq_filter (d now : ℚ) :
    ∀ w : List ℚ, w.Sorted (· ≤ ·) →
      trimWindow d now w = w.filter (fun t => decide (now - t < d)) := by
  intro w
  induction w with
  | nil => intro _; rfl
  | cons a l ih =>
    intro hs
    rw [List.sorted_cons] at hs
    obtain ⟨hall, hs2⟩ := hs
    by_cases hc : d ≤ now - a
    · rw [trimWindow, List.dropWhile_cons, if_pos (by simpa using hc),
        List.filter_cons_of_neg (by simpa using not_lt.mpr hc)]
      exact ih hs2
    · rw [trimWindow, List.dropWhile_cons, if_neg (by simpa using hc),
        List.filter_cons_of_pos (by simpa using not_le.mp hc)]
      have : l.filter (fun t => decide (now - t < d)) = l := by
        rw [List.filter_eq_self]
        intro b hb
        have h1 : a ≤ b := hall b hb
        have h2 : now - a < d := not_le.mp hc
        simpa using by linarith
      rw [this]

/-- Trimming the modelled window at a time `n` past every admission keeps
exactly the admissions within `d` of `n`. -/
theorem trimWindow_windowModel (d n : ℚ) (q : List ℚ)
    (hsq : q.Sorted (· ≤ ·)) (hqn : ∀ a ∈ q, a ≤ n) :
    trimWindow d n (windowModel d q) =
      q.filter (fun t => decide (n - t < d)) := by
  unfold windowModel
  cases hgl : q.getLast? with
  | none =>
    rw [List.getLast?_eq_none_iff] at hgl
    subst hgl
    rfl
  | some m =>
    have hm : m ∈ q := List.mem_of_mem_getLast? (by simp [hgl])
    have hmn : m ≤ n := hqn m hm
    rw [trimWindow_sorted_eq_filter d n _ (List.Pairwise.filter _ hsq),
      List.filter_filter]
    apply List.filter_congr
    intro x hx
    by_cases hx2 : n - x < d
    · have hx3 : m - x < d := by linarith
      simp [hx2, hx3]
    · simp [hx2]

/-- The modelled window after one more admission `n`: all admissions within
`d` of `n`. -/
theorem windowModel_concat (d : ℚ) (p : List ℚ) (n : ℚ) :
    windowModel d (p ++ [n]) = (p ++ [n]).filter (fun t => decide (n - t < d)) := by
  simp [windowModel, List.getLast?_concat]

/-- After a sorted run of admissions from a fresh limiter, the capacities
are unchanged and each deque holds exactly the admissions within the
window duration of the last admission. -/
theorem runAdmissions_windows (c1 c2 : Nat) :
    ∀ ts : List ℚ, ts.Sorted (· ≤ ·) →
    ∀ st, runAdmissions (RiotRateLimiter.init c1 c2) ts = some st →
      st.per_second = c1 ∧ st.per_two_minutes = c2 ∧
      st.second_window = windowModel 1 ts ∧
      st.two_minute_window = windowModel 120 ts := by
  intro ts
  induction ts using List.reverseRecOn with
  | nil =>
    intro _ st hrun
    simp only [runAdmissions, Option.some.injEq] at hrun
    subst hrun
    exact ⟨rfl, rfl, rfl, rfl⟩
  | append_singleton p n ih =>
    intro hsort st hrun
    have hsp : p.Sorted (· ≤ ·) := (List.pairwise_append.mp hsort).1
    have hpn : ∀ a ∈ p, a ≤ n := fun a ha =>
      (List.pairwise_append.mp hsort).2.2 a ha n (List.mem_singleton_self n)
    rw [runAdmissions_append] at hrun
    cases hmid : runAdmissions (RiotRateLimiter.init c1 c2) p with
    | none => rw [hmid] at hrun; exact absurd hrun (by simp)
    | some mid =>
      rw [hmid] at hrun
      obtain ⟨h1, h2, h3, h4⟩ := ih hsp mid hmid
      simp only [runAdmissions] at hrun
      cases htry : tryAdmit mid n with
      | none => rw [htry] at hrun; exact absurd hrun (by simp)
      | some st2 =>
        rw [htry] at hrun
        obtain rfl : st2 = st := Option.some.inj hrun
        simp only [tryAdmit] at htry
        split at htry
        · obtain rfl := (Option.some.inj htry).symm
          refine ⟨h1, h2, ?_, ?_⟩
          · show trimWindow 1 n mid.second_window ++ [n] = windowModel 1 (p ++ [n])
            rw [h3, trimWindow_windowModel 1 n p hsp hpn, windowModel_concat,
              List.filter_append]
            have hone : [n].filter (fun t => decide (n - t < 1)) = [n] := by
              simp
            rw [hone]
          · show trimWindow 120 n mid.two_minute_window ++ [n] =
              windowModel 120 (p ++ [n])
            rw [h4, trimWindow_windowModel 120 n p hsp hpn, windowModel_concat,
              List.filter_append]
            have hone : [n].filter (fun t => decide (n - t < 120)) = [n] := by
              simp
            rw [hone]
        · exact absurd htry (by simp)

/-- Counting argument: if at every admission the previously admitted
timestamps within `d` of it numbered fewer than `cap`, then no sliding
window of width `d` contains more than `cap` admissions. -/
theorem count_window_le (d : ℚ) (cap : Nat) :
    ∀ ts : List ℚ, ts.Sorted (· ≤ ·) →
    (∀ q n rest, ts = q ++ n :: rest →
      (q.filter (fun t => decide (n - t < d))).length < cap) →
    ∀ T : ℚ, (ts.filter (fun t => decide (T - d < t ∧ t ≤ T))).length ≤ cap := by
  intro ts
  induction ts using List.reverseRecOn with
  | nil => intro _ _ T; simp
  | append_singleton q n ih =>
    intro hsort hsplit T
    have hsq : q.Sorted (· ≤ ·) := (List.pairwise_append.mp hsort).1
    have ihq := ih hsq (fun q2 m rest heq =>
      hsplit q2 m (rest ++ [n]) (by rw [heq]; simp))
    rw [List.filter_append]
    by_cases hT : T - d < n ∧ n ≤ T
    · have hlast : (q.filter (fun t => decide (n - t < d))).length < cap :=
        hsplit q n [] rfl
      have hmono : (q.filter (fun t => decide (T - d < t ∧ t ≤ T))).length ≤
          (q.filter (fun t => decide (n - t < d))).length := by
        rw [← List.countP_eq_length_filter, ← List.countP_eq_length_filter]
        apply List.countP_mono_left
        intro x hx hpx
        simp only [decide_eq_true_eq] at hpx ⊢
        obtain ⟨hx1, hx2⟩ := hpx
        have hn2 := hT.2
        linarith
      have hn1 : [n].filter (fun t => decide (T - d < t ∧ t ≤ T)) = [n] := by
        simp [hT]
      rw [hn1, List.length_append, List.length_singleton]
      exact Nat.succ_le_of_lt (lt_of_le_of_lt hmono hlast)
    · have hn0 : [n].filter (fun t => decide (T - d < t ∧ t ≤ T)) = [] := by
        simp [hT]
      rw [hn0, List.append_nil]
      exact ihq T

/-- C5: over any sorted sequence of admitted `wait()` timestamps from a
fresh limiter, no sliding window of 1 time unit contains more than
`per_second` admissions and no window of 120 time units contains more than
`per_two_minutes` admissions; moreover a call is admitted exactly when both
trimmed windows are under capacity. -/
theorem rate_limiter_sliding_windows (c1 c2 : Nat) (ts : List ℚ)
    (st : RiotRateLimiter) (hsort : ts.Sorted (· ≤ ·))
    (hrun : runAdmissions (RiotRateLimiter.init c1 c2) ts = some st) :
    (∀ T : ℚ,
      (ts.filter (fun t => decide (T - 1 < t ∧ t ≤ T))).length ≤ c1 ∧
      (ts.filter (fun t => decide (T - 120 < t ∧ t ≤ T))).length ≤ c2) ∧
    (∀ (lm : RiotRateLimiter) (now : ℚ),
      (tryAdmit lm now).isSome ↔
        ((trim_windows now lm).second_window.length < lm.per_second ∧
          (trim_windows now lm).two_minute_window.length < lm.per_two_minutes)) := by
  constructor
  · have hsplit : ∀ q n rest, ts = q ++ n :: rest →
        (q.filter (fun t => decide (n - t < 1))).length < c1 ∧
        (q.filter (fun t => decide (n - t < 120))).length < c2 := by
      intro q n rest heq
      rw [heq] at hrun hsort
      rw [show q ++ n :: rest = (q ++ [n]) ++ rest by simp] at hrun hsort
      have hsqn : (q ++ [n]).Sorted (· ≤ ·) := (List.pairwise_append.mp hsort).1
      have hsq : q.Sorted (· ≤ ·) := (List.pairwise_append.mp hsqn).1
      have hqn : ∀ a ∈ q, a ≤ n := fun a ha =>
        (List.pairwise_append.mp hsqn).2.2 a ha n (List.mem_singleton_self n)
      rw [runAdmissions_append] at hrun
      cases hpre : runAdmissions (RiotRateLimiter.init c1 c2) (q ++ [n]) with
      | none => rw [hpre] at hrun; exact absurd hrun (by simp)
      | some stp =>
        rw [runAdmissions_append] at hpre
        cases hq : runAdmissions (RiotRateLimiter.init c1 c2) q with
        | none => rw [hq] at hpre; exact absurd hpre (by simp)
        | some mid =>
          rw [hq] at hpre
          simp only [runAdmissions] at hpre
          cases htry : tryAdmit mid n with
          | none => rw [htry] at hpre; exact absurd hpre (by simp)
          | some st2 =>
            obtain ⟨h1, h2, h3, h4⟩ := runAdmissions_windows c1 c2 q hsq mid hq
            simp only [tryAdmit] at htry
            split at htry
            · next hcond =>
              constructor
              · have hc1 := hcond.1
                rw [show (trim_windows n mid).second_window =
                    trimWindow 1 n mid.second_window from rfl, h3, h1,
                  trimWindow_windowModel 1 n q hsq hqn] at hc1
                exact hc1
              · have hc2 := hcond.2
                rw [show (trim_windows n mid).two_minute_window =
                    trimWindow 120 n mid.two_minute_window from rfl, h4, h2,
                  trimWindow_windowModel 120 n q hsq hqn] at hc2
                exact hc2
            · exact absurd htry (by simp)
    intro T
    exact ⟨count_window_le 1 c1 ts hsort (fun q n rest h => (hsplit q n rest h).1) T,
      count_window_le 120 c2 ts hsort (fun q n rest h => (hsplit q n rest h).2) T⟩
  · intro lm now
    simp only [tryAdmit]
    split
    · next hcond => simp [hcond]
    · next hcond => simpa using hcond

/-- Witness for C5 at the concrete admissions 0, 5, 10 with capacities
2 and 3. -/
theorem rate_limiter_sliding_windows_witness :
    List.Sorted (· ≤ ·) ([0, 5, 10] : List ℚ) ∧
    runAdmissions (RiotRateLimiter.init 2 3) [0, 5, 10] =
      some ⟨2, 3, [10], [0, 5, 10]⟩ ∧
    (([0, 5, 10] : List ℚ).filter
      (fun t => decide ((10 : ℚ) - 1 < t ∧ t ≤ 10))).length ≤ 2 ∧
    (([0, 5, 10] : List ℚ).filter
      (fun t => decide ((10 : ℚ) - 120 < t ∧ t ≤ 10))).length ≤ 3 := by
  have hsorted : List.Sorted (· ≤ ·) ([0, 5, 10] : List ℚ) := by
    norm_num [List.sorted_cons]
  have hrunconc : runAdmissions (RiotRateLimiter.init 2 3) [0, 5, 10] =
      some ⟨2, 3, [10], [0, 5, 10]⟩ := by
    norm_num [runAdmissions, tryAdmit, trim_windows, trimWindow,
      RiotRateLimiter.init, List.dropWhile]
  exact ⟨hsorted, hrunconc,
    ((rate_limiter_sliding_windows 2 3 [0, 5, 10] ⟨2, 3, [10], [0, 5, 10]⟩
      hsorted hrunconc).1 10).1,
    ((rate_limiter_sliding_windows 2 3 [0, 5, 10] ⟨2, 3, [10], [0, 5, 10]⟩
      hsorted hrunconc).1 10).2⟩

end LoLFetch
